import Mathlib

/-!
Verification of the inventory dashboard's mock backend and claim flow.

The source is a TypeScript mock store (`MOCK_DB`, `getInventory`,
`claimStock` in `app/models/inventory.server.ts`) and a dashboard route
(`app/routes/dashboard.tsx`) with an `action` handler and an optimistic
stock cell.  We embed the state-passing behaviour shallowly: the mutable
in-memory list becomes an explicit `List Item` threaded through each
operation, thrown `Error` objects become `Except String` values carrying
the message text, and `formData.get` values of type `string | null`
become `Option String` (with `none` for `null`).
-/

namespace Inventory

/-- An inventory item, mirroring `type Item = { id: string; name: string;
stock: number }`.  Stock values in this program are integers. -/
structure Item where
  id : String
  name : String
  stock : Int
deriving DecidableEq

/-- The seed store, mirroring `MOCK_DB` in the source. -/
def MOCK_DB : List Item :=
  [ ⟨"1", "Super Widget A", 10⟩,
    ⟨"2", "Mega Widget B", 0⟩,
    ⟨"3", "Wonder Widget C", 5⟩,
    ⟨"4", "Hyper Widget D", 2⟩ ]

/-- The predicate `(i) => i.id === id` used by `MOCK_DB.find` in
`claimStock`.  The argument is typed `string` but can be `null` at
runtime (the action casts `formData.get("itemId") as string`); JavaScript
strict equality between a string and `null` is always false, which the
`none` case models. -/
def idMatches (id : Option String) (i : Item) : Bool :=
  match id with
  | some s => i.id == s
  | none => false

/-- The in-place mutation `item.stock -= 1` performed by `claimStock` on
the object returned by `MOCK_DB.find`: as a list transformation it
decrements the stock of the first element matching the identifier and
leaves every other element untouched. -/
def decFirst (id : Option String) : List Item → List Item
  | [] => []
  | i :: rest =>
      if idMatches id i then { i with stock := i.stock - 1 } :: rest
      else i :: decFirst id rest

/-- `claimStock` from the source: find the item by id; throw
`"Item not found"` when absent; throw `"Out of stock"` when
`item.stock <= 0`; otherwise decrement and return the updated item.
The artificial 1-second delay has no effect on the sequential state and
is not modelled.  The pair's second component is the store after the
call. -/
def claimStock (id : Option String) (db : List Item) :
    Except String Item × List Item :=
  match db.find? (idMatches id) with
  | none => (Except.error "Item not found", db)
  | some item =>
      if item.stock ≤ 0 then (Except.error "Out of stock", db)
      else (Except.ok { item with stock := item.stock - 1 }, decFirst id db)

/-- `getInventory` from the source: after an artificial delay it returns
`MOCK_DB` unchanged.  The 20% random-failure branch is commented out in
this build, so the only behaviour is a successful return; the `Except`
result type records that the function's TypeScript type
(`Promise<Item[]>`) could reject. -/
def getInventory (db : List Item) : Except String (List Item) × List Item :=
  (Except.ok db, db)

/-- The value returned by the route `action`: either
`{ success: true, item }` or `{ success: false, error }`. -/
inductive ActionResult where
  | success (item : Item)
  | failure (error : String)
deriving DecidableEq

/-- The `action` handler in `dashboard.tsx` restricted to its effect:
`claimStock(itemId)` inside try/catch; on success it returns
`{ success: true, item }`, on a thrown `Error` it returns
`{ success: false, error: error.message }`.  `claimStock` only ever
throws `Error` objects, which the `Except.error` branch carries. -/
def action (itemId : Option String) (db : List Item) :
    ActionResult × List Item :=
  match claimStock itemId db with
  | (Except.ok item, db') => (ActionResult.success item, db')
  | (Except.error msg, db') => (ActionResult.failure msg, db')

/-- `formData.get(key)` over form data modelled as a list of key/value
pairs: the first entry with the given key, or `none` for `null` when the
key is absent. -/
def formGet (form : List (String × String)) (key : String) : Option String :=
  (form.find? (fun p => p.fst == key)).map (fun p => p.snd)

/-- The `action` handler including its form-data extraction
`formData.get("itemId") as string`. -/
def actionForm (form : List (String × String)) (db : List Item) :
    ActionResult × List Item :=
  action (formGet form "itemId") db

/-- The fetcher states distinguished by `InventoryStockCell`:
`fetcher.state` is one of `"idle"`, `"submitting"`, `"loading"`. -/
inductive FState where
  | idle
  | submitting
  | loading
deriving DecidableEq

/-- The slice of `useFetcher` observed by `InventoryStockCell`:
`fetcher.state` and `fetcher.data` (the last action result, `none` when
no action has returned yet; React Router retains it across
re-submissions until new data arrives). -/
structure Fetcher where
  state : FState
  data : Option ActionResult
deriving DecidableEq

/-- `isUpdating` in `InventoryStockCell`: the fetcher is submitting or
loading. -/
def isUpdating (f : Fetcher) : Bool :=
  f.state == FState.submitting || f.state == FState.loading

/-- `hasError` in `InventoryStockCell`: `fetcher.data && !fetcher.data.success`
under JavaScript truthiness — true exactly when data is present and is a
failure. -/
def hasError (f : Fetcher) : Bool :=
  match f.data with
  | some (ActionResult.failure _) => true
  | _ => false

/-- `displayStock` computed by `InventoryStockCell`: `item.stock`, except
`Math.max(0, item.stock - 1)` while updating with no error in the
fetcher data. -/
def displayStock (item : Item) (f : Fetcher) : Int :=
  if isUpdating f && !hasError f then max 0 (item.stock - 1) else item.stock

/-- An operation against the store: a `getInventory` read or a
`claimStock` decrement. -/
inductive Op where
  | read
  | claim (id : Option String)

/-- Sequential execution of a list of operations, threading the store. -/
def runOps : List Op → List Item → List Item
  | [], db => db
  | Op.read :: ops, db => runOps ops (getInventory db).2
  | Op.claim id :: ops, db => runOps ops (claimStock id db).2

/-! ### Helper lemmas -/

/-- With duplicate-free ids, `find?` on a member item's id returns that
item. -/
theorem find?_id_of_nodup (db : List Item) (item : Item)
    (hnodup : (db.map Item.id).Nodup) (hmem : item ∈ db) :
    db.find? (idMatches (some item.id)) = some item := by
  induction db with
  | nil => cases hmem
  | cons x rest ih =>
      rw [List.map_cons, List.nodup_cons] at hnodup
      rcases List.mem_cons.mp hmem with heq | hmem'
      · subst heq
        exact List.find?_cons_of_pos _ (by simp [idMatches])
      · have hne : x.id ≠ item.id := by
          intro h
          exact hnodup.1 (h ▸ List.mem_map_of_mem Item.id hmem')
        rw [List.find?_cons_of_neg _ (by simp [idMatches, hne])]
        exact ih hnodup.2 hmem'

/-- Decomposition of a successful find: the store splits as
`pre ++ item :: post` where nothing in `pre` matches, and `decFirst`
changes only the found item, decrementing its stock. -/
theorem decFirst_split (s : String) (db : List Item) (item : Item)
    (h : db.find? (idMatches (some s)) = some item) :
    ∃ pre post, db = pre ++ item :: post ∧
      (∀ y ∈ pre, (y.id == s) = false) ∧
      decFirst (some s) db = pre ++ { item with stock := item.stock - 1 } :: post := by
  induction db with
  | nil => simp at h
  | cons x rest ih =>
      by_cases hx : idMatches (some s) x = true
      · rw [List.find?_cons_of_pos _ hx] at h
        injection h with h
        subst h
        refine ⟨[], rest, rfl, by simp, ?_⟩
        simp [decFirst, hx]
      · rw [List.find?_cons_of_neg _ hx] at h
        obtain ⟨pre, post, hdb, hpre, hdec⟩ := ih h
        refine ⟨x :: pre, post, by rw [hdb]; rfl, ?_, ?_⟩
        · intro y hy
          rcases List.mem_cons.mp hy with rfl | hy'
          · simpa [idMatches] using hx
          · exact hpre y hy'
        · simp only [decFirst, hx, if_neg]
          rw [hdec]
          simp

/-- `find?` over a split list whose prefix contains no match finds the
head of the suffix when it matches. -/
theorem find?_append_first (p : Item → Bool) (pre post : List Item) (u : Item)
    (hpre : ∀ y ∈ pre, p y = false) (hu : p u = true) :
    (pre ++ u :: post).find? p = some u := by
  induction pre with
  | nil => simpa using List.find?_cons_of_pos _ hu
  | cons x rest ih =>
      rw [List.cons_append,
        List.find?_cons_of_neg _ (by simp [hpre x (List.mem_cons_self x rest)])]
      exact ih (fun y hy => hpre y (List.mem_cons_of_mem x hy))

/-- When `claimStock` reports an error, the store is returned
unchanged. -/
theorem claimStock_error_eq (id : Option String) (db : List Item) (msg : String)
    (h : (claimStock id db).1 = Except.error msg) :
    claimStock id db = (Except.error msg, db) := by
  unfold claimStock at h ⊢
  cases hfind : db.find? (idMatches id) with
  | none => simp only [hfind] at h ⊢; simp at h; rw [h]
  | some item =>
      simp only [hfind] at h ⊢
      by_cases hs : item.stock ≤ 0
      · simp only [if_pos hs] at h ⊢; simp at h; rw [h]
      · simp only [if_neg hs] at h
        cases h

/-- `claimStock` with a `null` identifier matches nothing and fails with
the not-found message, leaving the store unchanged. -/
theorem claimStock_none (db : List Item) :
    claimStock none db = (Except.error "Item not found", db) := by
  have h : db.find? (idMatches none) = none := by
    rw [List.find?_eq_none]
    intro x _
    simp [idMatches]
  simp [claimStock, h]

/-- A `claimStock` call preserves nonnegativity of every stock in the
store. -/
theorem claimStock_preserves_nonneg (id : Option String) (db : List Item)
    (h : ∀ i ∈ db, 0 ≤ i.stock) :
    ∀ i ∈ (claimStock id db).2, 0 ≤ i.stock := by
  unfold claimStock
  cases hfind : db.find? (idMatches id) with
  | none => simpa using h
  | some item =>
      by_cases hs : item.stock ≤ 0
      · simpa [hs] using h
      · simp only [if_neg hs]
        cases id with
        | none =>
            exfalso
            have : db.find? (idMatches none) = none := by
              rw [List.find?_eq_none]; intro x _; simp [idMatches]
            rw [this] at hfind
            cases hfind
        | some s =>
            obtain ⟨pre, post, hdb, _, hdec⟩ := decFirst_split s db item hfind
            intro i hi
            rw [hdec] at hi
            rcases List.mem_append.mp hi with hiPre | hiTail
            · exact h i (hdb ▸ List.mem_append.mpr (Or.inl hiPre))
            · rcases List.mem_cons.mp hiTail with rfl | hiPost
              · have : 0 < item.stock := lt_of_not_le hs
                simp only []
                omega
              · exact h i (hdb ▸ List.mem_append.mpr
                  (Or.inr (List.mem_cons_of_mem _ hiPost)))

/-- Running any sequence of operations preserves nonnegativity of every
stock. -/
theorem runOps_preserves_nonneg (ops : List Op) (db : List Item)
    (h : ∀ i ∈ db, 0 ≤ i.stock) :
    ∀ i ∈ runOps ops db, 0 ≤ i.stock := by
  induction ops generalizing db with
  | nil => simpa [runOps] using h
  | cons op ops ih =>
      cases op with
      | read => exact ih db h
      | claim id => exact ih _ (claimStock_preserves_nonneg id db h)

/-! ### Claim theorems -/

/-- Claim C1: for every item in the store with positive stock (ids being
duplicate-free, as the data model requires), one `claimStock` call on its
id succeeds, returns the item with stock decreased by exactly 1, and the
store's record for that id afterwards holds the decremented stock. -/
theorem claimStock_decrements (db : List Item) (item : Item)
    (hnodup : (db.map Item.id).Nodup) (hmem : item ∈ db)
    (hstock : 0 < item.stock) :
    ∃ db',
      claimStock (some item.id) db =
        (Except.ok { item with stock := item.stock - 1 }, db') ∧
      db'.find? (idMatches (some item.id)) =
        some { item with stock := item.stock - 1 } := by
  have hfind := find?_id_of_nodup db item hnodup hmem
  have hns : ¬ item.stock ≤ 0 := not_le.mpr hstock
  obtain ⟨pre, post, _, hpre, hdec⟩ := decFirst_split item.id db item hfind
  refine ⟨decFirst (some item.id) db, ?_, ?_⟩
  · simp [claimStock, hfind, hns]
  · rw [hdec]
    exact find?_append_first _ pre post _
      (fun y hy => by simpa [idMatches] using hpre y hy)
      (by simp [idMatches])

/-- Claim C1 witness: claiming item "1" (stock 10) of the seed store. -/
theorem claimStock_decrements_witness :
    (MOCK_DB.map Item.id).Nodup ∧
    (⟨"1", "Super Widget A", 10⟩ : Item) ∈ MOCK_DB ∧
    (∃ db',
      claimStock (some "1") MOCK_DB =
        (Except.ok ⟨"1", "Super Widget A", 9⟩, db') ∧
      db'.find? (idMatches (some "1")) =
        some ⟨"1", "Super Widget A", 9⟩) :=
  ⟨by decide, by decide,
    claimStock_decrements MOCK_DB ⟨"1", "Super Widget A", 10⟩
      (by decide) (by decide) (by decide)⟩

/-- Claim C2: for every item in the store whose stock is at most 0 (ids
being duplicate-free), `claimStock` on its id fails with the
"Out of stock" message and leaves the store unchanged. -/
theorem claimStock_out_of_stock (db : List Item) (item : Item)
    (hnodup : (db.map Item.id).Nodup) (hmem : item ∈ db)
    (hstock : item.stock ≤ 0) :
    claimStock (some item.id) db = (Except.error "Out of stock", db) := by
  have hfind := find?_id_of_nodup db item hnodup hmem
  simp [claimStock, hfind, hstock]

/-- Claim C2 witness: claiming item "2" (stock 0) of the seed store. -/
theorem claimStock_out_of_stock_witness :
    (MOCK_DB.map Item.id).Nodup ∧
    (⟨"2", "Mega Widget B", 0⟩ : Item) ∈ MOCK_DB ∧
    claimStock (some "2") MOCK_DB = (Except.error "Out of stock", MOCK_DB) :=
  ⟨by decide, by decide,
    claimStock_out_of_stock MOCK_DB ⟨"2", "Mega Widget B", 0⟩
      (by decide) (by decide) (by decide)⟩

/-- Claim C3: for every identifier matching no item's id, `claimStock`
fails with the "Item not found" message and leaves the store entirely
unchanged. -/
theorem claimStock_not_found (db : List Item) (s : String)
    (h : ∀ i ∈ db, i.id ≠ s) :
    claimStock (some s) db = (Except.error "Item not found", db) := by
  have hfind : db.find? (idMatches (some s)) = none := by
    rw [List.find?_eq_none]
    intro i hi
    simpa [idMatches] using h i hi
  simp [claimStock, hfind]

/-- Claim C3 witness: identifier "999" matches no seed item. -/
theorem claimStock_not_found_witness :
    (∀ i ∈ MOCK_DB, i.id ≠ "999") ∧
    claimStock (some "999") MOCK_DB =
      (Except.error "Item not found", MOCK_DB) :=
  ⟨by decide, claimStock_not_found MOCK_DB "999" (by decide)⟩

/-- Claim C4: starting from the seed store, after any sequence of read
and decrement operations every stock is nonnegative; and a decrement
resolving to an item whose stock is 0 fails with "Out of stock" without
mutating the store. -/
theorem stock_invariant :
    (∀ ops : List Op, ∀ i ∈ runOps ops MOCK_DB, 0 ≤ i.stock) ∧
    (∀ (db : List Item) (id : Option String) (item : Item),
      db.find? (idMatches id) = some item → item.stock = 0 →
      claimStock id db = (Except.error "Out of stock", db)) := by
  constructor
  · intro ops
    exact runOps_preserves_nonneg ops MOCK_DB (by decide)
  · intro db id item hfind hstock
    simp [claimStock, hfind, hstock]

/-- Claim C4 witness: the seed store after one successful claim is still
all-nonnegative, and claiming zero-stock item "2" fails without
mutation. -/
theorem stock_invariant_witness :
    (0 ≤ ((⟨"2", "Mega Widget B", 0⟩ : Item)).stock) ∧
    claimStock (some "2") MOCK_DB = (Except.error "Out of stock", MOCK_DB) :=
  ⟨stock_invariant.1 [Op.claim (some "1")] ⟨"2", "Mega Widget B", 0⟩ (by decide),
    stock_invariant.2 MOCK_DB (some "2") ⟨"2", "Mega Widget B", 0⟩
      (by decide) (by decide)⟩

/-- Claim C5 counterexample: on a re-submission after a previous claim
settled with a failure, the fetcher still holds the failure data, so in
the Predicting state (`fetcher.state = "submitting"`) the displayed
stock equals the authoritative stock (5), not `max 0 (5 - 1) = 4` as the
claim requires. -/
theorem displayStock_stale_failure_counterexample :
    displayStock ⟨"3", "Wonder Widget C", 5⟩
        ⟨FState.submitting, some (ActionResult.failure "Out of stock")⟩ =
      5 ∧
    (5 : Int) ≠ max 0 (5 - 1) := by
  constructor
  · rfl
  · decide

/-- Claim C5 amended: while a claim is submitting or loading and the
fetcher holds no failure result from a previous claim, the displayed
stock equals `max 0 (stock - 1)`. -/
theorem displayStock_predicting (item : Item) (f : Fetcher)
    (hstate : f.state = FState.submitting ∨ f.state = FState.loading)
    (hnoerr : hasError f = false) :
    displayStock item f = max 0 (item.stock - 1) := by
  have hup : isUpdating f = true := by
    rcases hstate with h | h <;> simp [isUpdating, h]
  simp [displayStock, hup, hnoerr]

/-- Claim C5 amended witness: a first submission for item "3" (stock 5)
with no prior fetcher data displays 4. -/
theorem displayStock_predicting_witness :
    ((⟨FState.submitting, none⟩ : Fetcher).state = FState.submitting ∨
      (⟨FState.submitting, none⟩ : Fetcher).state = FState.loading) ∧
    hasError ⟨FState.submitting, none⟩ = false ∧
    displayStock ⟨"3", "Wonder Widget C", 5⟩ ⟨FState.submitting, none⟩ =
      max 0 ((5 : Int) - 1) :=
  ⟨Or.inl rfl, rfl,
    displayStock_predicting ⟨"3", "Wonder Widget C", 5⟩
      ⟨FState.submitting, none⟩ (Or.inl rfl) rfl⟩

/-- Claim C6: a successful `claimStock` changes only the stock of the
single (first) item matching the identifier: the store keeps its length,
id list and name list, the matching item keeps its id and name with
stock decreased by 1, and every other entry is untouched. -/
theorem claimStock_frame (s : String) (db db' : List Item) (item' : Item)
    (h : claimStock (some s) db = (Except.ok item', db')) :
    db'.length = db.length ∧
    db'.map Item.id = db.map Item.id ∧
    db'.map Item.name = db.map Item.name ∧
    ∃ pre x post,
      db = pre ++ x :: post ∧ x.id = s ∧ (∀ y ∈ pre, y.id ≠ s) ∧
      item' = { x with stock := x.stock - 1 } ∧
      db' = pre ++ item' :: post := by
  cases hfind : db.find? (idMatches (some s)) with
  | none => simp [claimStock, hfind] at h
  | some item =>
      by_cases hs : item.stock ≤ 0
      · simp [claimStock, hfind, hs] at h
      · have hred : claimStock (some s) db =
            (Except.ok { item with stock := item.stock - 1 },
              decFirst (some s) db) := by
          simp [claimStock, hfind, hs]
        rw [hred] at h
        injection h with h1 h2
        injection h1 with h1
        obtain ⟨pre, post, hdb, hpre, hdec⟩ := decFirst_split s db item hfind
        have hid : item.id = s := by
          have := List.find?_some hfind
          simpa [idMatches] using this
        subst h1
        refine ⟨?_, ?_, ?_, pre, item, post, hdb, hid,
          fun y hy => by simpa using (hpre y hy), rfl, by rw [← h2, hdec]⟩
        · rw [← h2, hdec, hdb]; simp
        · rw [← h2, hdec, hdb]; simp
        · rw [← h2, hdec, hdb]; simp

/-- Claim C6 witness: claiming item "1" of the seed store decrements only
that entry. -/
theorem claimStock_frame_witness :
    claimStock (some "1") MOCK_DB =
      (Except.ok ⟨"1", "Super Widget A", 9⟩,
        [ ⟨"1", "Super Widget A", 9⟩,
          ⟨"2", "Mega Widget B", 0⟩,
          ⟨"3", "Wonder Widget C", 5⟩,
          ⟨"4", "Hyper Widget D", 2⟩ ]) ∧
    ([ (⟨"1", "Super Widget A", 9⟩ : Item),
       ⟨"2", "Mega Widget B", 0⟩,
       ⟨"3", "Wonder Widget C", 5⟩,
       ⟨"4", "Hyper Widget D", 2⟩ ].length = MOCK_DB.length ∧
     [ (⟨"1", "Super Widget A", 9⟩ : Item),
       ⟨"2", "Mega Widget B", 0⟩,
       ⟨"3", "Wonder Widget C", 5⟩,
       ⟨"4", "Hyper Widget D", 2⟩ ].map Item.id = MOCK_DB.map Item.id ∧
     [ (⟨"1", "Super Widget A", 9⟩ : Item),
       ⟨"2", "Mega Widget B", 0⟩,
       ⟨"3", "Wonder Widget C", 5⟩,
       ⟨"4", "Hyper Widget D", 2⟩ ].map Item.name = MOCK_DB.map Item.name ∧
     ∃ pre x post,
       MOCK_DB = pre ++ x :: post ∧ x.id = "1" ∧
       (∀ y ∈ pre, y.id ≠ "1") ∧
       (⟨"1", "Super Widget A", 9⟩ : Item) =
         { x with stock := x.stock - 1 } ∧
       [ (⟨"1", "Super Widget A", 9⟩ : Item),
         ⟨"2", "Mega Widget B", 0⟩,
         ⟨"3", "Wonder Widget C", 5⟩,
         ⟨"4", "Hyper Widget D", 2⟩ ] = pre ++ ⟨"1", "Super Widget A", 9⟩ :: post) :=
  ⟨by rfl,
    claimStock_frame "1" MOCK_DB
      [ ⟨"1", "Super Widget A", 9⟩,
        ⟨"2", "Mega Widget B", 0⟩,
        ⟨"3", "Wonder Widget C", 5⟩,
        ⟨"4", "Hyper Widget D", 2⟩ ]
      ⟨"1", "Super Widget A", 9⟩ (by rfl)⟩

/-- Claim C7: `getInventory` takes no input beyond the store, returns the
full item list, and does not mutate the store; the returned list is
identical across calls absent mutation. -/
theorem getInventory_spec :
    ∀ db : List Item, getInventory db = (Except.ok db, db) :=
  fun _ => rfl

/-- Claim C8: in this build `getInventory` never fails — every invocation
returns the item list and no error is raised (the random-failure branch
is commented out). -/
theorem getInventory_never_fails :
    ∀ db : List Item, ∃ items, (getInventory db).1 = Except.ok items :=
  fun db => ⟨db, rfl⟩

/-- Claim C9: whenever `claimStock` fails with an error, the route action
returns success = false with exactly that error message, unmodified, and
the store it leaves behind is the unchanged one. -/
theorem action_error_passthrough (id : Option String) (db : List Item)
    (msg : String) (h : (claimStock id db).1 = Except.error msg) :
    action id db = (ActionResult.failure msg, db) := by
  have heq := claimStock_error_eq id db msg h
  simp [action, heq]

/-- Claim C9 witness: claiming zero-stock item "2" makes the action
return the "Out of stock" message verbatim. -/
theorem action_error_passthrough_witness :
    (claimStock (some "2") MOCK_DB).1 = Except.error "Out of stock" ∧
    action (some "2") MOCK_DB = (ActionResult.failure "Out of stock", MOCK_DB) :=
  ⟨by rfl, action_error_passthrough (some "2") MOCK_DB "Out of stock" (by rfl)⟩

/-- Claim C10: when the form data has no "itemId" field the action does
not throw: the null identifier matches no item, `claimStock` fails with
"Item not found", the action returns that failure, and the store is
unchanged. -/
theorem action_missing_itemId (form : List (String × String))
    (db : List Item) (h : formGet form "itemId" = none) :
    actionForm form db = (ActionResult.failure "Item not found", db) := by
  simp [actionForm, h, action, claimStock_none]

/-- Claim C10 witness: form data containing only a "quantity" field. -/
theorem action_missing_itemId_witness :
    formGet [("quantity", "3")] "itemId" = none ∧
    actionForm [("quantity", "3")] MOCK_DB =
      (ActionResult.failure "Item not found", MOCK_DB) :=
  ⟨rfl, action_missing_itemId [("quantity", "3")] MOCK_DB rfl⟩

end Inventory
